import Mathlib

/-!
Verification development for the geospatial hazard-map application.

The definitions below are a shallow embedding of the JavaScript source in
`src/unnamed/part_000` (the primary file; `src/map.js` contains an earlier
revision of the same functions with identical control flow for everything
modelled here).  JavaScript numbers are modelled by `ℚ`, with `NaN`
represented explicitly (`Option ℚ`, or the `JsVal.nan` constructor where the
string/number distinction of a JS value matters).  Each asynchronous provider
response is modelled as an explicit input value, so a task becomes a pure
function from the responses it awaits to the text it writes into its report
slot (together with instrumentation counters/flags that record which code
paths ran).
-/

namespace GeoMap

/-- A geographic point (`L.LatLng` / turf position): latitude, longitude. -/
structure Point where
  lat : ℚ
  lng : ℚ
deriving DecidableEq, Repr

/-- A JavaScript value as returned by `getDistanceToPolygonEdge`:
either a numeric string (`Number.prototype.toFixed` returns a *string*,
modelled here by the rational number that string denotes), a finite number,
or the number `NaN`. -/
inductive JsVal where
  | str (val : ℚ)
  | num (val : ℚ)
  | nan
deriving DecidableEq, Repr

/-- `true` exactly when the JS value is of type `number` (`NaN` is a number). -/
def JsVal.isNumber : JsVal → Bool
  | .str _ => false
  | .num _ => true
  | .nan => true

/-- `parseFloat` applied to a `JsVal`, with `none` standing for `NaN`
(`parseFloat` of a numeric string yields its value; of `NaN` yields `NaN`). -/
def parseFloatJs : JsVal → Option ℚ
  | .str v => some v
  | .num v => some v
  | .nan => none

/-- `x.toFixed(2)` as a rounding on the ideal value: round half up to two
decimal places (distances here are nonnegative, where JS `toFixed` rounds
half away from zero, i.e. half up). -/
def round2 (q : ℚ) : ℚ := (⌊q * 100 + 1/2⌋ : ℚ) / 100

/-- `Math.round`: round half up to an integer. -/
def jsRound (q : ℚ) : ℤ := ⌊q + 1/2⌋

/-- Zero-pad a natural number to `n` digits (used to print decimals). -/
def padZeros (n : ℕ) (k : ℕ) : String :=
  let s := toString k
  (String.mk (List.replicate (n - s.length) '0')) ++ s

/-- `x.toFixed(d)` rendered as a string of the rounded value. -/
def toFixedStr (d : ℕ) (q : ℚ) : String :=
  let m : ℤ := ⌊q * ((10 : ℚ) ^ d) + 1/2⌋
  let base : ℤ := (10 : ℤ) ^ d
  toString (m / base) ++ "." ++ padZeros d (m % base).toNat

/-!
## Report aggregation (`installClickReport`, part_000 lines 1285–1375)

Seven named report slots; a `results` record of default texts; a `completed`
counter; `checkDone` increments the counter and, exactly when it reaches the
declared task count, joins the slot texts in the fixed static order
fire, flood, ozone, pm, drink, landslide, shaking.
-/

/-- The seven statically declared report slots (the keys of `results`). -/
inductive Slot where
  | fire | flood | ozone | pm | drink | landslide | shaking
deriving DecidableEq, Repr

/-- The static display order used by `checkDone` (part_000 lines 1363–1371). -/
def slotOrder : List Slot :=
  [.fire, .flood, .ozone, .pm, .drink, .landslide, .shaking]

/-- The default texts of the `results` object (part_000 lines 1304–1312). -/
def initResults : Slot → String
  | .fire => "❌ Fire Hazard Zone: No data."
  | .flood => "❌ Flood Hazard Zone: No data."
  | .ozone => "❌ Ozone: No data."
  | .pm => "❌ PM2.5: No data."
  | .drink => "❌ Drinking Water: No data."
  | .landslide => "❌ Landslide Susceptibility: No data."
  | .shaking => "❌ Shaking Potential: No data."

/-- `totalTasks = Object.keys(results).length` (part_000 line 1358). -/
def totalTasks : ℕ := 7

/-- The mutable state of one click-report aggregation: the `results` record,
the `completed` counter, the rendered report (if the join already fired), and
a counter of how many times the report was (re-)rendered. -/
structure AggState where
  results : Slot → String
  completed : ℕ
  rendered : Option (List String)
  renderCount : ℕ

/-- `checkDone` (part_000 lines 1360–1375): increment `completed`; when it
equals `totalTasks`, build the ordered list and render it. -/
def checkDone (s : AggState) : AggState :=
  let c := s.completed + 1
  if c = totalTasks then
    { results := s.results
      completed := c
      rendered := some (slotOrder.map s.results)
      renderCount := s.renderCount + 1 }
  else
    { s with completed := c }

/-- One task settling: it first writes its own slot of `results`
(`results.<slot> = text`) and then calls `checkDone()`. -/
def settleSlot (s : AggState) (k : Slot) (v : String) : AggState :=
  checkDone { s with results := fun j => if j = k then v else s.results j }

/-- Run a sequence of slot settlements (the order in which the seven
asynchronous tasks happen to complete). -/
def runSettlements : AggState → List (Slot × String) → AggState
  | s, [] => s
  | s, (k, v) :: rest => runSettlements (settleSlot s k v) rest

/-- The aggregation state right after a map click (before any task settles). -/
def initAgg : AggState :=
  { results := initResults, completed := 0, rendered := none, renderCount := 0 }

example :
    (runSettlements initAgg
      [(.shaking, "g"), (.fire, "a"), (.flood, "b"), (.drink, "e"),
       (.ozone, "c"), (.pm, "d"), (.landslide, "f")]).rendered
    = some ["a", "b", "c", "d", "e", "f", "g"] := by decide

/-!
## Geometry and edge distance (part_000 lines 1013–1054)

`turf` is an external library; its primitives are abstracted as a structure
of functions.  `turf.polygonToLine` turns the rings of a (multi)polygon into
its boundary line work, which we represent concretely as the list of rings.
-/

/-- GeoJSON geometry of a feature, as inspected by
`getDistanceToPolygonEdge`: polygon rings, multipolygon rings, or anything
else (point, line, …). -/
inductive Geometry where
  | polygon (rings : List (List Point))
  | multiPolygon (polys : List (List (List Point)))
  | other
deriving DecidableEq, Repr

/-- A provider feature: a geometry plus its `properties` mapping. -/
structure Feature where
  geom : Geometry
  props : List (String × String)
deriving DecidableEq, Repr

/-- `feature.properties[fieldName]` interpolated into a template literal:
a missing property renders as the string `undefined`. -/
def propStr (f : Feature) (field : String) : String :=
  match f.props.lookup field with
  | some v => v
  | none => "undefined"

/-- Abstract model of the turf primitives used by the source:
`turf.nearestPointOnLine` (on the boundary rings of a polygonal geometry)
and `turf.distance(…, { units: "miles" })` (great-circle distance in miles). -/
structure TurfLib where
  nearestPointOnLine : List (List Point) → Point → Point
  distanceMiles : Point → Point → ℚ

/-- The boundary rings handed to `turf.polygonToLine`: the polygon's rings,
or the concatenation of every polygon's rings for a multipolygon. -/
def boundaryRings : Geometry → Option (List (List Point))
  | .polygon rings => some rings
  | .multiPolygon polys => some polys.flatten
  | .other => none

/-- `getDistanceToPolygonEdge` (part_000 lines 1013–1026): for a polygonal
geometry, the distance from the click point to the nearest point on the
boundary, in miles, passed through `toFixed(2)` — which returns a *string*;
for any other geometry the number `NaN` is returned. -/
def getDistanceToPolygonEdge (T : TurfLib) (pt : Point) (f : Feature) : JsVal :=
  match boundaryRings f.geom with
  | some rings => .str (round2 (T.distanceMiles pt (T.nearestPointOnLine rings pt)))
  | none => .nan

/-!
## Nearest-feature selection

Both `getClosestFeatureByEdgeDistance` (part_000 lines 1028–1054) and the
inner loop of `nearestByEdgeDistanceAcross` (lines 1390–1414) scan features
left to right keeping the best (feature, distance) pair seen so far:
a feature is skipped when its edge distance is `NaN`, and replaces the best
pair only under strict `<` (so the earlier feature wins ties).
-/

/-- One loop iteration: `if (!isNaN(dist) && dist < minDist) { update }`
(equivalently `if (!Number.isFinite(dist)) continue; if (!best || dist < best.dist)`). -/
def closestStep (dist : Feature → Option ℚ) (st : Option (Feature × ℚ)) (f : Feature) :
    Option (Feature × ℚ) :=
  match dist f with
  | none => st
  | some d =>
    match st with
    | none => some (f, d)
    | some (bf, bd) => if d < bd then some (f, d) else some (bf, bd)

/-- The full scan over a feature list. -/
def closestFold (dist : Feature → Option ℚ) (l : List Feature)
    (st : Option (Feature × ℚ)) : Option (Feature × ℚ) :=
  l.foldl (closestStep dist) st

/-- A provider query response as observed by a `.run((err, fc) => …)`
callback: an error, a feature collection, or a non-error response whose
`features` member is not an array (accessing `fc.features.length` on it
throws). -/
inductive QRes (α : Type) where
  | qerr
  | ok (features : List α)
  | malformed
deriving DecidableEq, Repr

/-- The containing feature a containment query yielded:
`!err && fc?.features?.length` picks the first feature when the response is
a non-empty success, nothing otherwise. -/
def containedFeature : QRes Feature → Option Feature
  | .ok (f :: _) => some f
  | _ => none

/-- The `❌ <strong>label:</strong> No nearby zones found` message. -/
def noNearbyText (label : String) : String :=
  "❌ <strong>" ++ label ++ ":</strong> No nearby zones found"

/-- The `■ <strong>Nearest label:</strong> … 📏 Distance: d mi` message
(part_000 line 1044: the distance is printed with `toFixed(2)`). -/
def nearestFoundText (label val : String) (d : ℚ) : String :=
  "■ <strong>Nearest " ++ label ++ ":</strong> " ++ val ++
    "<br>📏 Distance: " ++ toFixedStr 2 d ++ " mi"

/-- The edge-distance ranking used by every nearest-search:
`parseFloat(getDistanceToPolygonEdge(latlng, f))`, `none` for `NaN`. -/
def edgeDist (T : TurfLib) (pt : Point) (f : Feature) : Option ℚ :=
  parseFloatJs (getDistanceToPolygonEdge T pt f)

/-- `getClosestFeatureByEdgeDistance` (part_000 lines 1028–1054), as a
function of the `nearby` query response; the result is the text passed to
`callback`.  A `malformed` response makes `fc.features.length` throw inside
the asynchronous callback, so `callback` is never invoked: that case is
`none`. -/
def getClosestFeatureByEdgeDistance (T : TurfLib) (pt : Point)
    (nearbyRes : QRes Feature) (label field : String) : Option String :=
  match nearbyRes with
  | .qerr => some (noNearbyText label)
  | .malformed => none
  | .ok features =>
    if features.length > 0 then
      match closestFold (edgeDist T pt) features none with
      | some (f, d) => some (nearestFoundText label (propStr f field) d)
      | none => some (noNearbyText label)
    else some (noNearbyText label)

/-- The cross-provider scan of `nearestByEdgeDistanceAcross`
(part_000 lines 1390–1411): layers whose `nearby` response erred, is empty,
or has no `features` array are skipped (`err || !fc?.features?.length`);
the best pair is threaded through the remaining feature lists.  (An `ok []`
response contributes an empty inner loop, which is the same as being
skipped.) -/
def nearestAcross (dist : Feature → Option ℚ) :
    List (QRes Feature) → Option (Feature × ℚ) → Option (Feature × ℚ)
  | [], best => best
  | QRes.ok features :: rest, best => nearestAcross dist rest (closestFold dist features best)
  | QRes.qerr :: rest, best => nearestAcross dist rest best
  | QRes.malformed :: rest, best => nearestAcross dist rest best

/-- `nearestByEdgeDistanceAcross` (part_000 lines 1390–1414): the text it
returns, given the `nearby` responses of the queried layers. -/
def nearestByEdgeDistanceAcross (T : TurfLib) (pt : Point)
    (layersRes : List (QRes Feature)) (label field : String) : String :=
  match nearestAcross (edgeDist T pt) layersRes none with
  | some (f, d) => nearestFoundText label (propStr f field) d
  | none => noNearbyText label

/-!
## Raster identify helpers (part_000 lines 196–344)

`identifyLandslideAt` is modelled up to its response parser
(`parseLandslideLabelFromIdentify`, whose outcome is taken as the input):
the claims only concern its error propagation — it *rejects* on a provider
error and resolves the parsed label (or `null`) otherwise.
`identifyMMIAt` is modelled in full: it never rejects.
-/

/-- A landslide identify response: a provider error, or a successful response
whose parsed class label is `label` (`none` when nothing parsed). -/
inductive LsResp where
  | err
  | ok (label : Option String)
deriving DecidableEq, Repr

/-- `identifyLandslideAt` (part_000 lines 282–296): `reject(error)` on a
provider error (`Except.error`), otherwise resolve the parsed label. -/
def identifyLandslideAt : LsResp → Except Unit (Option String)
  | .err => .error ()
  | .ok label => .ok label

/-- The fields of a shaking (MMI) identify response that `identifyMMIAt`
inspects.  The outer `Option` is field presence (`typeof … !== "undefined"`);
the inner `Option` is the result of `Number(…)`, with `none` for a
non-finite result. -/
structure MMIRaw where
  pixelValue : Option (Option ℚ)
  rawValue : Option (Option ℚ)
  resValue : Option (Option ℚ)
deriving DecidableEq, Repr

/-- A shaking identify response: provider error, or a raw response. -/
inductive MMIResp where
  | err
  | ok (raw : MMIRaw)
deriving DecidableEq, Repr

/-- `identifyMMIAt` (part_000 lines 322–344): on a provider error it
`resolve(null)`s (it never rejects); otherwise it reads, in order,
`raw.pixel.value`, `raw.value`, `res.value`, and resolves the value if
finite, `null` otherwise. -/
def identifyMMIAt : MMIResp → Except Unit (Option ℚ)
  | .err => .ok none
  | .ok raw =>
    let val : Option (Option ℚ) :=
      match raw.pixelValue with
      | some v => some v
      | none =>
        match raw.rawValue with
        | some v => some v
        | none => raw.resValue
    match val with
    | some (some q) => .ok (some q)
    | _ => .ok none

/-- The MMI class table `MMI_CLASSES` (part_000 lines 299–310). -/
def mmiClasses (i : ℤ) : Option (String × String) :=
  if i = 1 then some ("I", "Not felt")
  else if i = 2 then some ("II", "Weak")
  else if i = 3 then some ("III", "Weak")
  else if i = 4 then some ("IV", "Light")
  else if i = 5 then some ("V", "Moderate")
  else if i = 6 then some ("VI", "Strong")
  else if i = 7 then some ("VII", "Very Strong")
  else if i = 8 then some ("VIII", "Severe")
  else if i = 9 then some ("IX", "Violent")
  else if i = 10 then some ("X+", "Extreme")
  else none

/-- The record built by `formatMMI`. -/
structure MMIFmt where
  label : String
  intClass : ℤ
  valueStr : String
deriving DecidableEq, Repr

/-- `formatMMI` (part_000 lines 312–316). -/
def formatMMI (mmi : ℚ) : MMIFmt :=
  let intClass : ℤ := max 1 (min 10 ⌊mmi⌋)
  let meta := (mmiClasses intClass).getD ("?", "Unknown")
  { label := meta.1 ++ " – " ++ meta.2, intClass := intClass, valueStr := toFixedStr 1 mmi }

/-!
## The seven click-report tasks (part_000 lines 1314–1564)

Each task is the pure function from the provider responses it awaits to the
final value of its `results` slot, instrumented with the number of times it
calls `checkDone` (and, for fire/flood, with flags recording which
sub-queries ran).
-/

/-- `fmtFireInside` (part_000 lines 1317–1321). -/
def fmtFireInside (zone whichArea : String) : String :=
  "■ <strong>Fire Hazard Zone (" ++ whichArea ++ "):</strong><br>\n" ++
  "This location is within a <strong>" ++ zone ++ "</strong> Fire Hazard Severity Zone.<br>\n" ++
  "These zones reflect expected fire behavior based on fuels, terrain, and typical fire weather, and are used to guide planning and mitigation."

/-- `fmtFloodInside` (part_000 lines 1323–1327). -/
def fmtFloodInside (zone : String) : String :=
  "■ <strong>Flood Hazard Zone:</strong><br>\n" ++
  "This location is within <strong>" ++ zone ++ "</strong> (FEMA NFHL).<br>\n" ++
  "Flood zones represent areas with varying flood probabilities and are used for floodplain management, insurance, and development decisions."

/-- The `EXPLAIN` table inside `fmtCalEnviro` (part_000 lines 1330–1334). -/
def cesExplain : String → Option String
  | "ozone" => some "Ground-level ozone is a lung irritant. This indicator summarizes warm-season ozone conditions (often tied to smog)."
  | "pm" => some "PM2.5 is tiny airborne particulate pollution that can get deep into your lungs. Higher values generally mean worse air quality."
  | "drink" => some "Drinking water contaminants combines contaminant and violation info into a single score (higher is worse)."
  | _ => none

/-- `fmtCalEnviro` (part_000 lines 1329–1343). -/
def fmtCalEnviro (indicatorKey title valueStr pctStr noteStr : String) : String :=
  let explainText := (cesExplain indicatorKey).getD "Environmental indicator from CalEnviroScreen."
  "■ <strong>" ++ title ++ ":</strong><br>\n" ++ explainText ++
    "<br>\n<strong>Value:</strong> " ++ valueStr ++
    "<br>\n<strong>Percentile:</strong> " ++ pctStr ++
    "<br>\n<span style=\"opacity:0.9\">" ++ noteStr ++ "</span>"

/-- `fmtLandslide` (part_000 lines 1345–1349). -/
def fmtLandslide (label : String) : String :=
  "■ <strong>Landslide Susceptibility:</strong><br>\n" ++
  "Class <strong>" ++ label ++ "</strong> (California Geological Survey).<br>\n" ++
  "Higher classes generally indicate terrain more prone to slope failure under triggers like intense rainfall, earthquakes, and drainage changes."

/-- `fmtShaking` (part_000 lines 1351–1355). -/
def fmtShaking (_mmi : ℚ) (fmt : MMIFmt) : String :=
  "■ <strong>Shaking Potential (MMI, 10%/50yr):</strong><br>\n" ++
  "Estimated intensity: <strong>" ++ fmt.valueStr ++ "</strong> (" ++ fmt.label ++ ").<br>\n" ++
  "MMI is a human-impact scale: higher values generally mean stronger shaking and greater potential for damage."

/-- Outcome of the fire task, instrumented with which tiers ran. -/
structure FireOutcome where
  text : String
  sraQueried : Bool
  nearestRan : Bool
  settleCount : ℕ
deriving DecidableEq, Repr

/-- The note appended to the fire nearest-search text (part_000 line 1440). -/
def fireNote : String :=
  "<br><em>Note: Zones are designated by CAL FIRE for planning and mitigation guidance.</em>"

/-- The fire branch of `installClickReport` (part_000 lines 1416–1446):
LRA containment first; SRA containment only when LRA yielded no containing
feature; `nearestByEdgeDistanceAcross` over both layers only when neither
did.  `checkDone` sits in a `finally`, so it runs exactly once on every
path. -/
def fireTask (T : TurfLib) (pt : Point) (lraRes sraRes : QRes Feature)
    (lraNearby sraNearby : QRes Feature) : FireOutcome :=
  match containedFeature lraRes with
  | some f =>
    { text := fmtFireInside (propStr f "FHSZ_Description") "LRA"
      sraQueried := false, nearestRan := false, settleCount := 1 }
  | none =>
    match containedFeature sraRes with
    | some f =>
      { text := fmtFireInside (propStr f "FHSZ_Description") "SRA"
        sraQueried := true, nearestRan := false, settleCount := 1 }
    | none =>
      { text := nearestByEdgeDistanceAcross T pt [lraNearby, sraNearby]
                  "Fire Hazard Zone" "FHSZ_Description" ++ fireNote
        sraQueried := true, nearestRan := true, settleCount := 1 }

/-- Outcome of the flood task, instrumented with whether the nearest-search
path ran. -/
structure FloodOutcome where
  text : String
  nearestInvoked : Bool
  settleCount : ℕ
deriving DecidableEq, Repr

/-- The note appended to the flood nearest-search text (part_000 line 1462). -/
def floodNote : String :=
  "<br><em>Note: FEMA flood zones guide insurance and floodplain decisions.</em>"

/-- The flood branch of `installClickReport` (part_000 lines 1449–1472):
containment first; on error or an empty collection, fall to
`getClosestFeatureByEdgeDistance`, whose callback settles the slot; a
malformed containment response throws on `fc.features.length`, is caught,
and settles with the error text.  (A malformed *nearby* response would throw
inside `getClosestFeatureByEdgeDistance`'s own asynchronous callback, where
no handler calls `checkDone`: in that one case the slot keeps its default
text and never settles.) -/
def floodTask (T : TurfLib) (pt : Point) (containsRes nearbyRes : QRes Feature) :
    FloodOutcome :=
  match containsRes with
  | .ok (f :: _) =>
    { text := fmtFloodInside (propStr f "ESRI_SYMBOLOGY")
      nearestInvoked := false, settleCount := 1 }
  | .malformed =>
    { text := "■ <strong>Flood Hazard Zone:</strong> Error fetching data."
      nearestInvoked := false, settleCount := 1 }
  | _ =>
    match getClosestFeatureByEdgeDistance T pt nearbyRes "Flood Hazard Zone" "ESRI_SYMBOLOGY" with
    | some txt => { text := txt ++ floodNote, nearestInvoked := true, settleCount := 1 }
    | none => { text := initResults .flood, nearestInvoked := true, settleCount := 0 }

/-- The CalEnviroScreen properties read by the ozone / PM2.5 / drinking-water
branches; every field may be absent. -/
structure CesProps where
  ozone : Option ℚ
  ozoneP : Option ℚ
  pm : Option ℚ
  pmP : Option ℚ
  drink : Option ℚ
  drinkP : Option ℚ
deriving DecidableEq, Repr

/-- The ozone branch (part_000 lines 1475–1493): on success with a feature,
format the indicator; on a provider error or an empty collection the slot
keeps its default text; a malformed response throws, is caught, and writes
the error text.  `checkDone` runs exactly once in every case. -/
def ozoneTask : QRes CesProps → String × ℕ
  | .qerr => (initResults .ozone, 1)
  | .ok [] => (initResults .ozone, 1)
  | .ok (p :: _) =>
    (fmtCalEnviro "ozone" "Ozone (Ground-Level)"
      ((match p.ozone with | some q => toFixedStr 3 q | none => "unknown") ++ " ppm")
      (match p.ozoneP with | some q => toString (jsRound q) | none => "unknown")
      "<em>(Data from 2017–2019)</em>", 1)
  | .malformed => ("■ <strong>Ozone:</strong> Error fetching data.", 1)

/-- The PM2.5 branch (part_000 lines 1496–1514). -/
def pmTask : QRes CesProps → String × ℕ
  | .qerr => (initResults .pm, 1)
  | .ok [] => (initResults .pm, 1)
  | .ok (p :: _) =>
    (fmtCalEnviro "pm" "PM2.5 (Fine Particulate Matter)"
      ((match p.pm with | some q => toFixedStr 2 q | none => "unknown") ++ " µg/m³")
      (match p.pmP with | some q => toString (jsRound q) | none => "unknown")
      "<em>(Data from 2015–2017)</em>", 1)
  | .malformed => ("■ <strong>PM2.5:</strong> Error fetching data.", 1)

/-- The drinking-water branch (part_000 lines 1517–1535). -/
def drinkTask : QRes CesProps → String × ℕ
  | .qerr => (initResults .drink, 1)
  | .ok [] => (initResults .drink, 1)
  | .ok (p :: _) =>
    (fmtCalEnviro "drink" "Drinking Water Contaminants"
      (match p.drink with | some q => toFixedStr 2 q | none => "unknown")
      (match p.drinkP with | some q => toString (jsRound q) | none => "unknown")
      "<em>(Data from 2011–2019 compliance cycle)</em>", 1)
  | .malformed => ("■ <strong>Drinking Water:</strong> Error fetching data.", 1)

/-- The landslide branch (part_000 lines 1538–1549): `identifyLandslideAt`
rejects on a provider error, which the `catch` turns into the error text;
`checkDone` sits in a `finally`. -/
def landslideTask (resp : LsResp) : String × ℕ :=
  match identifyLandslideAt resp with
  | .error _ => ("■ <strong>Landslide Susceptibility:</strong> Error fetching value.", 1)
  | .ok (some label) => (fmtLandslide label, 1)
  | .ok none => (initResults .landslide, 1)

/-- The error text of the shaking branch's `catch` (part_000 line 1560). -/
def shakingErrText : String := "■ <strong>Shaking Potential:</strong> Error fetching value."

/-- The shaking branch (part_000 lines 1552–1564): `identifyMMIAt` never
rejects, so the `catch` is unreachable from provider behaviour; `checkDone`
sits in a `finally`. -/
def shakingTask (resp : MMIResp) : String × ℕ :=
  match identifyMMIAt resp with
  | .error _ => (shakingErrText, 1)
  | .ok (some mmi) => (fmtShaking mmi (formatMMI mmi), 1)
  | .ok none => (initResults .shaking, 1)

/-!
## Debounce and the EV-chargers viewport controller (part_000 lines 123–129,
907–1007)
-/

/-- `UI.EV_FETCH_DEBOUNCE_MS` (part_000 line 105). -/
def evFetchDebounceMs : ℕ := 600

/-- The timer semantics of `debounce` (part_000 lines 123–129) over a sorted
list of call instants: at each call the pending timeout, if any, has already
fired when its deadline is at or before the call instant (recorded in the
output), is cancelled otherwise (`clearTimeout`), and a fresh timeout is set
for `now + ms`; a deadline still pending after the last call fires. -/
def debounceGo (ms : ℕ) : Option ℕ → List ℕ → List ℕ
  | some d, [] => [d]
  | none, [] => []
  | some d, t :: rest =>
    if d ≤ t then d :: debounceGo ms (some (t + ms)) rest
    else debounceGo ms (some (t + ms)) rest
  | none, t :: rest => debounceGo ms (some (t + ms)) rest

/-- The instants at which the debounced function actually runs, given the
instants of the calls. -/
def debounceRun (ms : ℕ) (events : List ℕ) : List ℕ := debounceGo ms none events

/-- The state owned by one `createEvChargersLayer` instance: whether the
overlay is on the map (`map.hasLayer(layer)`), the `isLoading` flag, and the
number of fetches currently in flight. -/
structure EvState where
  enabled : Bool
  isLoading : Bool
  inFlight : ℕ
deriving DecidableEq, Repr

/-- The events that touch the controller state: a call of `fetchInView`
(from the debounced `moveend` handler or `overlayadd`), and the resolution
or rejection of an in-flight fetch. -/
inductive EvEvent where
  | fetchInView
  | fetchSuccess
  | fetchFailure
deriving DecidableEq, Repr

/-- `fetchInView` and its completion handlers (part_000 lines 915–984):
`fetchInView` returns at once when the overlay is disabled or `isLoading` is
set; otherwise it sets `isLoading` *before* starting the fetch (the returned
flag records that a fetch was started).  Both the success handler and the
`catch` handler clear `isLoading` and start nothing new (completion events
apply only to a fetch that is actually in flight). -/
def evStep : EvState → EvEvent → EvState × Bool
  | s, .fetchInView =>
    if !s.enabled then (s, false)
    else if s.isLoading then (s, false)
    else ({ s with isLoading := true, inFlight := s.inFlight + 1 }, true)
  | s, .fetchSuccess =>
    if s.inFlight = 0 then (s, false)
    else ({ s with isLoading := false, inFlight := s.inFlight - 1 }, false)
  | s, .fetchFailure =>
    if s.inFlight = 0 then (s, false)
    else ({ s with isLoading := false, inFlight := s.inFlight - 1 }, false)

/-- Run a sequence of controller events. -/
def evRun (s : EvState) : List EvEvent → EvState
  | [] => s
  | e :: rest => evRun (evStep s e).1 rest

/-- The controller state at creation time. -/
def evInit (enabled : Bool) : EvState :=
  { enabled := enabled, isLoading := false, inFlight := 0 }

/-- A trivial instantiation of the turf primitives, used to evaluate the
click-report machinery on concrete inputs. -/
def turfZero : TurfLib :=
  { nearestPointOnLine := fun _ _ => { lat := 0, lng := 0 }
    distanceMiles := fun _ _ => 0 }

/-- A concrete query point. -/
def origin : Point := { lat := 0, lng := 0 }

/-- The feature stream that `nearestByEdgeDistanceAcross` scans: the
features of the successful responses, in layer order. -/
def okFeats : QRes Feature → List Feature
  | .ok features => features
  | _ => []

/-- All features scanned across the layers, in scan order. -/
def acrossFeatures (rs : List (QRes Feature)) : List Feature :=
  (rs.map okFeats).flatten

/-!
## Nearest-selection lemmas
-/

/-- A step on a feature whose edge distance is `NaN` leaves the best pair
unchanged (NaN is excluded from the comparison). -/
lemma closestStep_nan (dist : Feature → Option ℚ) (st : Option (Feature × ℚ))
    (g : Feature) (h : dist g = none) : closestStep dist st g = st := by
  simp [closestStep, h]

/-- A step on a feature with a finite edge distance `dg` yields a best pair
whose distance is at most `dg` and at most the previous best distance. -/
lemma closestStep_bound (dist : Feature → Option ℚ) (st : Option (Feature × ℚ))
    (g : Feature) (dg : ℚ) (h : dist g = some dg) :
    ∃ bf' bd', closestStep dist st g = some (bf', bd') ∧ bd' ≤ dg ∧
      ∀ bf bd, st = some (bf, bd) → bd' ≤ bd := by
  rcases st with _ | ⟨bf, bd⟩
  · refine ⟨g, dg, by simp [closestStep, h], le_refl _, ?_⟩
    intro bf bd hst
    cases hst
  · by_cases hlt : dg < bd
    · refine ⟨g, dg, by simp [closestStep, h, hlt], le_refl _, ?_⟩
      intro bf₀ bd₀ hst
      injection hst with hst
      injection hst with h1 h2
      rw [← h2]
      exact le_of_lt hlt
    · refine ⟨bf, bd, by simp [closestStep, h, hlt], le_of_not_lt hlt, ?_⟩
      intro bf₀ bd₀ hst
      injection hst with hst
      injection hst with h1 h2
      rw [← h2]

/-- Scanning with a non-empty best pair always yields a best pair. -/
lemma closestFold_some (dist : Feature → Option ℚ) :
    ∀ (l : List Feature) (bf : Feature) (bd : ℚ),
      ∃ f d, closestFold dist l (some (bf, bd)) = some (f, d) := by
  intro l
  induction l with
  | nil => intro bf bd; exact ⟨bf, bd, rfl⟩
  | cons g rest ih =>
    intro bf bd
    show ∃ f d, closestFold dist rest (closestStep dist (some (bf, bd)) g) = some (f, d)
    rcases hdg : dist g with _ | dg
    · rw [closestStep_nan dist _ g hdg]
      exact ih bf bd
    · obtain ⟨bf', bd', hstep, -, -⟩ := closestStep_bound dist (some (bf, bd)) g dg hdg
      rw [hstep]
      exact ih bf' bd'

/-- The scan yields no pair exactly when every feature's edge distance is
`NaN` (in particular, when there are no features at all). -/
lemma closestFold_none_iff (dist : Feature → Option ℚ) :
    ∀ l : List Feature, closestFold dist l none = none ↔ ∀ f ∈ l, dist f = none := by
  intro l
  induction l with
  | nil => simp [closestFold]
  | cons g rest ih =>
    show closestFold dist rest (closestStep dist none g) = none ↔ _
    rcases hdg : dist g with _ | dg
    · rw [closestStep_nan dist _ g hdg]
      rw [ih]
      constructor
      · intro h f hf
        rcases List.mem_cons.mp hf with rfl | hmem
        · exact hdg
        · exact h f hmem
      · intro h f hf
        exact h f (List.mem_cons_of_mem g hf)
    · obtain ⟨bf', bd', hstep, -, -⟩ := closestStep_bound dist none g dg hdg
      rw [hstep]
      obtain ⟨f, d, hfd⟩ := closestFold_some dist rest bf' bd'
      rw [hfd]
      constructor
      · intro h
        cases h
      · intro h
        have := h g (List.mem_cons_self g rest)
        rw [hdg] at this
        cases this

/-- The selected pair's distance is a lower bound on every finite edge
distance in the scanned list, and on the incoming best distance. -/
lemma closestFold_isMin (dist : Feature → Option ℚ) :
    ∀ (l : List Feature) (st : Option (Feature × ℚ)) (f : Feature) (d : ℚ),
      closestFold dist l st = some (f, d) →
      (∀ g ∈ l, ∀ dg, dist g = some dg → d ≤ dg) ∧
      (∀ bf bd, st = some (bf, bd) → d ≤ bd) := by
  intro l
  induction l with
  | nil =>
    intro st f d h
    refine ⟨by simp, ?_⟩
    intro bf bd hst
    rw [hst] at h
    injection h with h
    injection h with h1 h2
    rw [h2]
  | cons g rest ih =>
    intro st f d h
    replace h : closestFold dist rest (closestStep dist st g) = some (f, d) := h
    rcases hdg : dist g with _ | dg
    · rw [closestStep_nan dist _ g hdg] at h
      obtain ⟨hmin, hacc⟩ := ih st f d h
      refine ⟨?_, hacc⟩
      intro g' hg' dg' hdg'
      rcases List.mem_cons.mp hg' with rfl | hmem
      · rw [hdg] at hdg'
        cases hdg'
      · exact hmin g' hmem dg' hdg'
    · obtain ⟨bf', bd', hstep, hble, hbacc⟩ := closestStep_bound dist st g dg hdg
      rw [hstep] at h
      obtain ⟨hmin, hacc⟩ := ih _ f d h
      have hdbd' : d ≤ bd' := hacc bf' bd' rfl
      refine ⟨?_, ?_⟩
      · intro g' hg' dg' hdg'
        rcases List.mem_cons.mp hg' with rfl | hmem
        · rw [hdg] at hdg'
          injection hdg' with he
          rw [← he]
          exact le_trans hdbd' hble
        · exact hmin g' hmem dg' hdg'
      · intro bf bd hst
        exact le_trans hdbd' (hbacc bf bd hst)

/-- The selected pair is the *first* feature attaining the minimum: either
it is the incoming best pair, or it occurs in the list with a finite
distance strictly below the incoming best distance and strictly below every
finite distance appearing before it. -/
lemma closestFold_first (dist : Feature → Option ℚ) :
    ∀ (l : List Feature) (st : Option (Feature × ℚ)) (f : Feature) (d : ℚ),
      closestFold dist l st = some (f, d) →
      st = some (f, d) ∨
      ∃ l₁ l₂, l = l₁ ++ f :: l₂ ∧ dist f = some d ∧
        (∀ bf bd, st = some (bf, bd) → d < bd) ∧
        (∀ g ∈ l₁, ∀ dg, dist g = some dg → d < dg) := by
  intro l
  induction l with
  | nil => intro st f d h; exact Or.inl h
  | cons g rest ih =>
    intro st f d h
    replace h : closestFold dist rest (closestStep dist st g) = some (f, d) := h
    rcases hdg : dist g with _ | dg
    · rw [closestStep_nan dist _ g hdg] at h
      rcases ih st f d h with hL | ⟨l₁, l₂, hsplit, hdf, hst, hbefore⟩
      · exact Or.inl hL
      · refine Or.inr ⟨g :: l₁, l₂, by rw [hsplit]; rfl, hdf, hst, ?_⟩
        intro g' hg' dg' hdg'
        rcases List.mem_cons.mp hg' with rfl | hmem
        · rw [hdg] at hdg'
          cases hdg'
        · exact hbefore g' hmem dg' hdg'
    · rcases st with _ | ⟨bf, bd⟩
      · have hstep : closestStep dist none g = some (g, dg) := by simp [closestStep, hdg]
        rw [hstep] at h
        rcases ih _ f d h with hL | ⟨l₁, l₂, hsplit, hdf, hst, hbefore⟩
        · injection hL with hL
          injection hL with h1 h2
          rw [← h1, ← h2]
          exact Or.inr ⟨[], rest, rfl, hdg, by rintro _ _ ⟨⟩, by simp⟩
        · refine Or.inr ⟨g :: l₁, l₂, by rw [hsplit]; rfl, hdf, by rintro _ _ ⟨⟩, ?_⟩
          intro g' hg' dg' hdg'
          rcases List.mem_cons.mp hg' with rfl | hmem
          · rw [hdg] at hdg'
            injection hdg' with he
            rw [← he]
            exact hst _ _ rfl
          · exact hbefore g' hmem dg' hdg'
      · by_cases hlt : dg < bd
        · have hstep : closestStep dist (some (bf, bd)) g = some (g, dg) := by
            simp [closestStep, hdg, hlt]
          rw [hstep] at h
          rcases ih _ f d h with hL | ⟨l₁, l₂, hsplit, hdf, hst, hbefore⟩
          · injection hL with hL
            injection hL with h1 h2
            rw [← h1, ← h2]
            refine Or.inr ⟨[], rest, rfl, hdg, ?_, by simp⟩
            rintro bf₀ bd₀ hst₀
            injection hst₀ with hst₀
            injection hst₀ with h3 h4
            rw [← h4]
            exact hlt
          · refine Or.inr ⟨g :: l₁, l₂, by rw [hsplit]; rfl, hdf, ?_, ?_⟩
            · rintro bf₀ bd₀ hst₀
              injection hst₀ with hst₀
              injection hst₀ with h3 h4
              rw [← h4]
              exact lt_trans (hst _ _ rfl) hlt
            · intro g' hg' dg' hdg'
              rcases List.mem_cons.mp hg' with rfl | hmem
              · rw [hdg] at hdg'
                injection hdg' with he
                rw [← he]
                exact hst _ _ rfl
              · exact hbefore g' hmem dg' hdg'
        · have hstep : closestStep dist (some (bf, bd)) g = some (bf, bd) := by
            simp [closestStep, hdg, hlt]
          rw [hstep] at h
          rcases ih _ f d h with hL | ⟨l₁, l₂, hsplit, hdf, hst, hbefore⟩
          · exact Or.inl hL
          · refine Or.inr ⟨g :: l₁, l₂, by rw [hsplit]; rfl, hdf, ?_, ?_⟩
            · rintro bf₀ bd₀ hst₀
              injection hst₀ with hst₀
              injection hst₀ with h3 h4
              rw [← h4]
              exact hst bf bd rfl
            · intro g' hg' dg' hdg'
              rcases List.mem_cons.mp hg' with rfl | hmem
              · rw [hdg] at hdg'
                injection hdg' with he
                rw [← he]
                exact lt_of_lt_of_le (hst bf bd rfl) (le_of_not_lt hlt)
              · exact hbefore g' hmem dg' hdg'

/-- The cross-layer scan equals the plain scan of the concatenated feature
stream. -/
lemma nearestAcross_eq_fold (dist : Feature → Option ℚ) :
    ∀ (rs : List (QRes Feature)) (st : Option (Feature × ℚ)),
      nearestAcross dist rs st = closestFold dist (acrossFeatures rs) st := by
  intro rs
  induction rs with
  | nil => intro st; rfl
  | cons r rest ih =>
    intro st
    cases r with
    | qerr =>
      show nearestAcross dist rest st = _
      rw [ih st]
      simp [acrossFeatures, okFeats]
    | malformed =>
      show nearestAcross dist rest st = _
      rw [ih st]
      simp [acrossFeatures, okFeats]
    | ok features =>
      show nearestAcross dist rest (closestFold dist features st) = _
      rw [ih]
      have : acrossFeatures (QRes.ok features :: rest)
          = features ++ acrossFeatures rest := by
        simp [acrossFeatures, okFeats]
      rw [this]
      simp [closestFold, List.foldl_append]

/-!
## Aggregation lemmas
-/

/-- Processing a non-empty batch of settlements that brings `completed` up to
`totalTasks` renders the report: the slot texts in the static `slotOrder`,
each slot showing its newly settled text (or the text it already had, when
it is not in the batch). -/
lemma runSettlements_rendered (v : Slot → String) :
    ∀ (l : List Slot) (s : AggState),
      s.completed + l.length = totalTasks → l ≠ [] →
      (runSettlements s (l.map fun k => (k, v k))).rendered
        = some (slotOrder.map fun j => if j ∈ l then v j else s.results j) := by
  intro l
  induction l with
  | nil => intro s _ hne; exact absurd rfl hne
  | cons k rest ih =>
    intro s hlen _
    simp only [List.map_cons, runSettlements, settleSlot]
    cases rest with
    | nil =>
      have hc : s.completed + 1 = totalTasks := by
        simpa using hlen
      simp only [List.map_nil, runSettlements, checkDone, hc, if_pos]
      congr 1
      apply List.map_congr_left
      intro j _
      by_cases hj : j = k <;> simp [hj]
    | cons r rs =>
      have hc : ¬ (s.completed + 1 = totalTasks) := by
        simp only [List.length_cons] at hlen
        omega
      have hstep :
          checkDone { s with results := fun j => if j = k then v k else s.results j }
            = { s with
                  results := fun j => if j = k then v k else s.results j
                  completed := s.completed + 1 } := by
        simp [checkDone, hc]
      rw [hstep]
      have hlen' :
          ({ s with
              results := fun j => if j = k then v k else s.results j
              completed := s.completed + 1 } : AggState).completed + (r :: rs).length
            = totalTasks := by
        simp only [List.length_cons] at hlen ⊢
        omega
      rw [ih _ hlen' (by simp)]
      congr 1
      apply List.map_congr_left
      intro j _
      by_cases hj : j ∈ r :: rs
      · simp [hj, List.mem_cons.mpr (Or.inr hj)]
      · by_cases hjk : j = k <;> simp [hj, hjk]

/-- `checkDone` increments `renderCount` exactly on the settlement that
brings `completed` up to `totalTasks`. -/
lemma runSettlements_renderCount :
    ∀ (l : List (Slot × String)) (s : AggState),
      s.completed + l.length ≤ totalTasks →
      (runSettlements s l).renderCount
        = s.renderCount + (if s.completed + l.length = totalTasks ∧ l ≠ [] then 1 else 0) := by
  intro l
  induction l with
  | nil => intro s _; simp [runSettlements]
  | cons kv rest ih =>
    intro s hle
    obtain ⟨k, w⟩ := kv
    simp only [runSettlements, settleSlot]
    by_cases hc : s.completed + 1 = totalTasks
    · have hrest : rest = [] := by
        cases rest with
        | nil => rfl
        | cons a b =>
          exfalso
          simp only [List.length_cons] at hle
          omega
      subst hrest
      simp [runSettlements, checkDone, hc]
    · have hstep :
          checkDone { s with results := fun j => if j = k then w else s.results j }
            = { s with
                  results := fun j => if j = k then w else s.results j
                  completed := s.completed + 1 } := by
        simp [checkDone, hc]
      rw [hstep]
      rw [ih _ (by
        simp only [List.length_cons] at hle
        show s.completed + 1 + rest.length ≤ totalTasks
        omega)]
      simp only [List.length_cons]
      by_cases hr : rest = []
      · subst hr
        simp only [List.length_nil]
        have : ¬ (s.completed + (0 + 1) = totalTasks) := by omega
        simp [hc, this]
      · have h1 : (s.completed + 1 + rest.length = totalTasks ∧ rest ≠ []) ↔
            (s.completed + (rest.length + 1) = totalTasks ∧ (k, w) :: rest ≠ []) := by
          constructor
          · rintro ⟨h, _⟩; exact ⟨by omega, by simp⟩
          · rintro ⟨h, _⟩; exact ⟨by omega, hr⟩
        rw [if_congr h1 rfl rfl]

/-- Settling the seven slots in any permuted order renders the statically
ordered report. -/
lemma rendered_static_order (v : Slot → String) (l : List Slot)
    (hp : l.Perm slotOrder) :
    (runSettlements initAgg (l.map fun k => (k, v k))).rendered
      = some [v .fire, v .flood, v .ozone, v .pm, v .drink, v .landslide, v .shaking] := by
  have hlen : l.length = 7 := by simpa [slotOrder] using hp.length_eq
  have hne : l ≠ [] := by
    intro h
    rw [h] at hlen
    simp at hlen
  have h := runSettlements_rendered v l initAgg (by simp [initAgg, hlen, totalTasks]) hne
  rw [h]
  have hmem : ∀ j : Slot, j ∈ l := by
    intro j
    have : j ∈ slotOrder := by cases j <;> simp [slotOrder]
    exact hp.mem_iff.mpr this
  simp [slotOrder, hmem]

/-- With a pending deadline one debounce window after the previous event,
a burst whose gaps are all below `ms` keeps cancelling the pending timeout;
only the deadline of the last event fires. -/
lemma debounceGo_pending_burst (ms : ℕ) :
    ∀ (rest : List ℕ) (prev : ℕ),
      List.Chain' (fun a b => a < b ∧ b < a + ms) (prev :: rest) →
      debounceGo ms (some (prev + ms)) rest
        = [(prev :: rest).getLast (by simp) + ms] := by
  intro rest
  induction rest with
  | nil => intro prev _; rfl
  | cons t rs ih =>
    intro prev hch
    rw [List.chain'_cons] at hch
    have hnle : ¬ (prev + ms ≤ t) := by
      have := hch.1.2
      omega
    show (if prev + ms ≤ t then _ else debounceGo ms (some (t + ms)) rs) = _
    rw [if_neg hnle, ih t hch.2]
    congr 1

/-- In a strictly increasing list, every element is at most the last. -/
lemma chain_lt_le_getLast :
    ∀ (ts : List ℕ) (h : ts ≠ []), List.Chain' (· < ·) ts →
      ∀ t ∈ ts, t ≤ ts.getLast h := by
  intro ts
  induction ts with
  | nil => intro h; exact absurd rfl h
  | cons a rest ih =>
    intro _ hch t ht
    cases rest with
    | nil =>
      rw [List.mem_singleton.mp ht]
      simp [List.getLast]
    | cons b rs =>
      rw [List.chain'_cons] at hch
      rw [List.getLast_cons (by simp)]
      rcases List.mem_cons.mp ht with rfl | hmem
      · have hb : b ≤ (b :: rs).getLast (by simp) :=
          ih (by simp) hch.2 b (List.mem_cons_self b rs)
        omega
      · exact ih (by simp) hch.2 t hmem

/-- The controller invariant: never more than one fetch in flight, and
`isLoading` holds exactly while one is. -/
def evInv (s : EvState) : Prop :=
  s.inFlight ≤ 1 ∧ (s.isLoading = true ↔ s.inFlight = 1)

/-- Every controller event preserves the invariant. -/
lemma evStep_preserves_inv (s : EvState) (e : EvEvent) (h : evInv s) :
    evInv (evStep s e).1 := by
  obtain ⟨h1, h2⟩ := h
  cases e with
  | fetchInView =>
    by_cases hen : s.enabled
    · by_cases hl : s.isLoading
      · simpa [evStep, hen, hl] using ⟨h1, h2⟩
      · have h0 : s.inFlight = 0 := by
          rcases Nat.lt_or_ge s.inFlight 1 with h' | h'
          · omega
          · exfalso
            have : s.inFlight = 1 := by omega
            have := h2.mpr this
            rw [this] at hl
            exact hl rfl
        simp [evStep, hen, hl, evInv, h0]
    · simpa [evStep, hen] using ⟨h1, h2⟩
  | fetchSuccess =>
    by_cases h0 : s.inFlight = 0
    · simpa [evStep, h0] using ⟨h1, h2⟩
    · have : s.inFlight = 1 := by omega
      simp [evStep, h0, evInv, this]
  | fetchFailure =>
    by_cases h0 : s.inFlight = 0
    · simpa [evStep, h0] using ⟨h1, h2⟩
    · have : s.inFlight = 1 := by omega
      simp [evStep, h0, evInv, this]

/-- The invariant holds along every event sequence. -/
lemma evRun_preserves_inv :
    ∀ (events : List EvEvent) (s : EvState), evInv s → evInv (evRun s events) := by
  intro events
  induction events with
  | nil => intro s h; exact h
  | cons e rest ih =>
    intro s h
    exact ih (evStep s e).1 (evStep_preserves_inv s e h)

/-!
## Claim theorems
-/

/-- **C1.** For every map-click query point, the rendered report lists its
seven slots in the fixed static order fire, flood, ozone, pm, drink,
landslide, shaking, regardless of the order in which the seven lookup tasks
settle: settling the slots in any permuted order renders the same,
statically ordered report. -/
theorem report_order_independent (v : Slot → String) (l : List Slot)
    (hp : l.Perm slotOrder) :
    (runSettlements initAgg (l.map fun k => (k, v k))).rendered
      = some [v .fire, v .flood, v .ozone, v .pm, v .drink, v .landslide, v .shaking] :=
  rendered_static_order v l hp

/-- Witness for C1: the seven slots settled in fully reversed order still
render in the static declared order. -/
theorem report_order_independent_witness :
    (runSettlements initAgg
        ([Slot.shaking, Slot.landslide, Slot.drink, Slot.pm, Slot.ozone, Slot.flood,
          Slot.fire].map fun k => (k, initResults k))).rendered
      = some [initResults .fire, initResults .flood, initResults .ozone, initResults .pm,
              initResults .drink, initResults .landslide, initResults .shaking] :=
  report_order_independent initResults
    [Slot.shaking, Slot.landslide, Slot.drink, Slot.pm, Slot.ozone, Slot.flood, Slot.fire]
    (by decide)

/-- **C2 counterexample.** The claim fails on the unguarded flood
nearest-search path: with an empty flood containment response and a
malformed (non-error, no `features` array) nearby response,
`fc.features.length` throws inside `getClosestFeatureByEdgeDistance`'s
asynchronous callback (part_000 lines 1029–1053) before any `checkDone` —
the flood slot settles zero times, not once, so after the other six slots
settle the count stays at six and no report is ever rendered. -/
theorem flood_malformed_nearby_never_settles :
    (floodTask turfZero origin (QRes.ok []) QRes.malformed).settleCount = 0 ∧
    (floodTask turfZero origin (QRes.ok []) QRes.malformed).settleCount ≠ 1 ∧
    (runSettlements initAgg
        ([Slot.fire, Slot.ozone, Slot.pm, Slot.drink, Slot.landslide, Slot.shaking].map
          fun k => (k, initResults k))).renderCount = 0 ∧
    (runSettlements initAgg
        ([Slot.fire, Slot.ozone, Slot.pm, Slot.drink, Slot.landslide, Slot.shaking].map
          fun k => (k, initResults k))).rendered = none :=
  ⟨rfl, by decide, by decide, by decide⟩

/-- **C2 (amended).** For every map-click query in which the flood
nearest-search's nearby response is not malformed (not a non-error response
lacking a `features` array), each of the seven declared slots is settled
exactly once — `checkDone` is invoked exactly once per slot, including on
every provider-error and empty-result path — and exactly one report is
rendered, triggered precisely when the settled count reaches seven (no
proper prefix of the seven settlements renders anything).  On a malformed
flood nearby response the flood slot settles zero times, so no report is
rendered for that query. -/
theorem slots_settle_once_report_renders_once :
    (∀ T pt lra sra ln sn, (fireTask T pt lra sra ln sn).settleCount = 1) ∧
    (∀ T pt c n, n ≠ QRes.malformed → (floodTask T pt c n).settleCount = 1) ∧
    (∀ r, (ozoneTask r).2 = 1) ∧
    (∀ r, (pmTask r).2 = 1) ∧
    (∀ r, (drinkTask r).2 = 1) ∧
    (∀ r, (landslideTask r).2 = 1) ∧
    (∀ r, (shakingTask r).2 = 1) ∧
    (∀ l : List (Slot × String), l.length = totalTasks →
      (runSettlements initAgg l).renderCount = 1 ∧
      ∀ k, k < totalTasks → (runSettlements initAgg (l.take k)).renderCount = 0) ∧
    (∀ (T : TurfLib) (pt : Point),
      (floodTask T pt QRes.qerr QRes.malformed).settleCount = 0 ∧
      (floodTask T pt (QRes.ok []) QRes.malformed).settleCount = 0) := by
  refine ⟨?_, ?_, ?_, ?_, ?_, ?_, ?_, ?_, ?_⟩
  · intro T pt lra sra ln sn
    cases h1 : containedFeature lra <;> cases h2 : containedFeature sra <;>
      simp [fireTask, h1, h2]
  · intro T pt c n hn
    cases c with
    | qerr =>
      cases n with
      | qerr => simp [floodTask, getClosestFeatureByEdgeDistance]
      | ok features =>
        by_cases hf : features.length > 0
        · cases hbest : closestFold (edgeDist T pt) features none with
          | none => simp [floodTask, getClosestFeatureByEdgeDistance, hf, hbest]
          | some b => simp [floodTask, getClosestFeatureByEdgeDistance, hf, hbest]
        · simp [floodTask, getClosestFeatureByEdgeDistance, hf]
      | malformed => exact absurd rfl hn
    | ok features =>
      cases features with
      | nil =>
        cases n with
        | qerr => simp [floodTask, getClosestFeatureByEdgeDistance]
        | ok features =>
          by_cases hf : features.length > 0
          · cases hbest : closestFold (edgeDist T pt) features none with
            | none => simp [floodTask, getClosestFeatureByEdgeDistance, hf, hbest]
            | some b => simp [floodTask, getClosestFeatureByEdgeDistance, hf, hbest]
          · simp [floodTask, getClosestFeatureByEdgeDistance, hf]
        | malformed => exact absurd rfl hn
      | cons f rest => simp [floodTask]
    | malformed => simp [floodTask]
  · intro r
    rcases r with _ | fs | _
    · rfl
    · cases fs <;> rfl
    · rfl
  · intro r
    rcases r with _ | fs | _
    · rfl
    · cases fs <;> rfl
    · rfl
  · intro r
    rcases r with _ | fs | _
    · rfl
    · cases fs <;> rfl
    · rfl
  · intro r
    cases r with
    | err => rfl
    | ok label => cases label <;> rfl
  · intro r
    cases r with
    | err => rfl
    | ok raw =>
      simp only [shakingTask, identifyMMIAt]
      rcases hp : raw.pixelValue with _ | v
      · rcases hr : raw.rawValue with _ | v
        · rcases hs : raw.resValue with _ | v
          · simp [hp, hr, hs]
          · cases v <;> simp [hp, hr, hs]
        · cases v <;> simp [hp, hr]
      · cases v <;> simp [hp]
  · intro l hlen
    constructor
    · rw [runSettlements_renderCount l initAgg (by simp [initAgg, hlen])]
      have hne : l ≠ [] := by
        intro h
        rw [h] at hlen
        simp [totalTasks] at hlen
      simp [initAgg, hlen, hne]
    · intro k hk
      rw [runSettlements_renderCount (l.take k) initAgg
            (by simp [initAgg, totalTasks] at hk ⊢; omega)]
      have : ¬ (initAgg.completed + (l.take k).length = totalTasks ∧ l.take k ≠ []) := by
        rintro ⟨h, _⟩
        simp only [initAgg, List.length_take, hlen] at h
        simp only [totalTasks] at h hk
        omega
      rw [if_neg this]
      simp [initAgg]
  · intro T pt
    exact ⟨rfl, rfl⟩

/-- Witness for C2: a concrete flood settlement on the error path settles
once, settling all seven slots with concrete texts renders exactly one
report while the six-settlement prefix renders none, and the malformed
flood nearby response settles zero times. -/
theorem slots_settle_once_report_renders_once_witness :
    (floodTask turfZero origin QRes.qerr (QRes.ok [])).settleCount = 1 ∧
    (runSettlements initAgg (slotOrder.map fun k => (k, "settled"))).renderCount = 1 ∧
    (runSettlements initAgg ((slotOrder.map fun k => (k, "settled")).take 6)).renderCount = 0 ∧
    (floodTask turfZero origin QRes.qerr QRes.malformed).settleCount = 0 := by
  refine ⟨slots_settle_once_report_renders_once.2.1 turfZero origin QRes.qerr (QRes.ok [])
      (by decide), ?_, ?_, ?_⟩
  · exact (slots_settle_once_report_renders_once.2.2.2.2.2.2.2.1
        (slotOrder.map fun k => (k, "settled")) (by decide)).1
  · exact (slots_settle_once_report_renders_once.2.2.2.2.2.2.2.1
        (slotOrder.map fun k => (k, "settled")) (by decide)).2 6 (by decide)
  · exact (slots_settle_once_report_renders_once.2.2.2.2.2.2.2.2 turfZero origin).1

/-- A turf instantiation in which a polygon's edge distance from the query
point is the latitude gap to the polygon's first vertex (used to build
concrete nearest-search scenarios; all fixtures keep `b` north of `a`). -/
def turfLat : TurfLib :=
  { nearestPointOnLine := fun rings _ => (rings.headD []).headD origin
    distanceMiles := fun a b => b.lat - a.lat }

/-- A one-vertex polygon at latitude `q` (edge distance `q` from `origin`
under `turfLat`). -/
def polyAt (q : ℚ) : Geometry := .polygon [[{ lat := q, lng := 0 }]]

/-- A feature 3 miles from `origin` under `turfLat`. -/
def featFar : Feature := { geom := polyAt 3, props := [("ESRI_SYMBOLOGY", "far")] }

/-- The first of two features 1 mile from `origin` under `turfLat`. -/
def featNear1 : Feature := { geom := polyAt 1, props := [("ESRI_SYMBOLOGY", "near1")] }

/-- A non-polygonal feature: its edge distance is `NaN`. -/
def featNaN : Feature := { geom := .other, props := [("ESRI_SYMBOLOGY", "nanFeat")] }

/-- The second feature 1 mile from `origin` under `turfLat` (a tie). -/
def featNear2 : Feature := { geom := polyAt 1, props := [("ESRI_SYMBOLOGY", "near2")] }

/-- Under `turfLat`, a `polyAt q` feature at the origin has edge distance
`round2 q`. -/
lemma edgeDist_turfLat_polyAt (q : ℚ) (props : List (String × String)) :
    edgeDist turfLat origin { geom := polyAt q, props := props } = some (round2 q) := by
  simp [edgeDist, getDistanceToPolygonEdge, boundaryRings, turfLat, polyAt, origin, parseFloatJs]

/-- Under any turf model, a non-polygonal feature has edge distance `NaN`. -/
lemma edgeDist_other (T : TurfLib) (pt : Point) (props : List (String × String)) :
    edgeDist T pt { geom := .other, props := props } = none := by
  simp [edgeDist, getDistanceToPolygonEdge, boundaryRings, parseFloatJs]

/-- **C3.** The fire-hazard slot is resolved by strictly sequential tiering:
the SRA containment query runs exactly when the LRA containment query
yielded no containing feature; the nearest-search across LRA and SRA runs
exactly when neither containment query yielded a feature, and it picks a
feature attaining the global minimum edge distance across the union of both
providers' proximity results. -/
theorem fire_tiering_strictly_sequential (T : TurfLib) (pt : Point)
    (lraRes sraRes lraNearby sraNearby : QRes Feature) :
    ((fireTask T pt lraRes sraRes lraNearby sraNearby).sraQueried = true
        ↔ containedFeature lraRes = none) ∧
    ((fireTask T pt lraRes sraRes lraNearby sraNearby).nearestRan = true
        ↔ (containedFeature lraRes = none ∧ containedFeature sraRes = none)) ∧
    (containedFeature lraRes = none → containedFeature sraRes = none →
        (fireTask T pt lraRes sraRes lraNearby sraNearby).text
          = nearestByEdgeDistanceAcross T pt [lraNearby, sraNearby]
              "Fire Hazard Zone" "FHSZ_Description" ++ fireNote) ∧
    (∀ f d, nearestAcross (edgeDist T pt) [lraNearby, sraNearby] none = some (f, d) →
        edgeDist T pt f = some d ∧
        f ∈ acrossFeatures [lraNearby, sraNearby] ∧
        ∀ g ∈ acrossFeatures [lraNearby, sraNearby], ∀ dg,
          edgeDist T pt g = some dg → d ≤ dg) := by
  refine ⟨?_, ?_, ?_, ?_⟩
  · cases h1 : containedFeature lraRes <;> cases h2 : containedFeature sraRes <;>
      simp [fireTask, h1, h2]
  · cases h1 : containedFeature lraRes <;> cases h2 : containedFeature sraRes <;>
      simp [fireTask, h1, h2]
  · intro h1 h2
    simp [fireTask, h1, h2]
  · intro f d h
    rw [nearestAcross_eq_fold] at h
    obtain ⟨hmin, -⟩ := closestFold_isMin _ _ _ _ _ h
    rcases closestFold_first _ _ _ _ _ h with hL | ⟨l₁, l₂, hsplit, hdf, -, -⟩
    · cases hL
    · refine ⟨hdf, ?_, hmin⟩
      rw [hsplit]
      exact List.mem_append_right l₁ (List.mem_cons_self f l₂)

/-- Witness for C3: with an erroring LRA containment, an empty SRA
containment, proximity hits only on the SRA side, and a concrete turf model,
the fire slot is resolved by the nearest-search across both providers. -/
theorem fire_tiering_strictly_sequential_witness :
    (fireTask turfLat origin QRes.qerr (QRes.ok []) (QRes.ok [featFar])
        (QRes.ok [featNear1])).text
      = nearestByEdgeDistanceAcross turfLat origin [QRes.ok [featFar], QRes.ok [featNear1]]
          "Fire Hazard Zone" "FHSZ_Description" ++ fireNote ∧
    edgeDist turfLat origin featNear1 = some 1 ∧
    ∀ g ∈ acrossFeatures [QRes.ok [featFar], QRes.ok [featNear1]], ∀ dg,
      edgeDist turfLat origin g = some dg → 1 ≤ dg := by
  have e1 : edgeDist turfLat origin featFar = some 3 := by
    rw [show featFar = { geom := polyAt 3, props := [("ESRI_SYMBOLOGY", "far")] } from rfl,
      edgeDist_turfLat_polyAt]
    norm_num [round2]
  have e2 : edgeDist turfLat origin featNear1 = some 1 := by
    rw [show featNear1 = { geom := polyAt 1, props := [("ESRI_SYMBOLOGY", "near1")] } from rfl,
      edgeDist_turfLat_polyAt]
    norm_num [round2]
  have hsel : nearestAcross (edgeDist turfLat origin)
      [QRes.ok [featFar], QRes.ok [featNear1]] none = some (featNear1, 1) := by
    show nearestAcross (edgeDist turfLat origin) [QRes.ok [featNear1]]
      (closestFold (edgeDist turfLat origin) [featFar] none) = _
    show closestFold (edgeDist turfLat origin) [featNear1]
      (closestFold (edgeDist turfLat origin) [featFar] none) = _
    simp only [closestFold, List.foldl_cons, List.foldl_nil, closestStep, e1, e2]
    norm_num
  have h := fire_tiering_strictly_sequential turfLat origin QRes.qerr (QRes.ok [])
    (QRes.ok [featFar]) (QRes.ok [featNear1])
  refine ⟨h.2.2.1 (by decide) (by decide), ?_, ?_⟩
  · exact (h.2.2.2 featNear1 1 hsel).1
  · exact (h.2.2.2 featNear1 1 hsel).2.2

/-- **C4.** For a containment-first source (flood; each fire provider), a
containment query returning at least one feature short-circuits the
nearest-search path entirely, and the outcome is built from the *first*
feature in the provider's own return order, whatever follows it (no further
tie-break). -/
theorem containment_short_circuits_nearest (T : TurfLib) (pt : Point) :
    (∀ f rest nearbyRes,
        (floodTask T pt (QRes.ok (f :: rest)) nearbyRes).nearestInvoked = false ∧
        (floodTask T pt (QRes.ok (f :: rest)) nearbyRes).text
          = fmtFloodInside (propStr f "ESRI_SYMBOLOGY")) ∧
    (∀ f rest sraRes ln sn,
        (fireTask T pt (QRes.ok (f :: rest)) sraRes ln sn).nearestRan = false ∧
        (fireTask T pt (QRes.ok (f :: rest)) sraRes ln sn).sraQueried = false ∧
        (fireTask T pt (QRes.ok (f :: rest)) sraRes ln sn).text
          = fmtFireInside (propStr f "FHSZ_Description") "LRA") ∧
    (∀ lraRes f rest ln sn, containedFeature lraRes = none →
        (fireTask T pt lraRes (QRes.ok (f :: rest)) ln sn).nearestRan = false ∧
        (fireTask T pt lraRes (QRes.ok (f :: rest)) ln sn).text
          = fmtFireInside (propStr f "FHSZ_Description") "SRA") := by
  refine ⟨?_, ?_, ?_⟩
  · intro f rest nearbyRes
    exact ⟨rfl, rfl⟩
  · intro f rest sraRes ln sn
    refine ⟨?_, ?_, ?_⟩ <;> simp [fireTask, containedFeature]
  · intro lraRes f rest ln sn h
    have h2 : containedFeature (QRes.ok (f :: rest)) = some f := rfl
    refine ⟨?_, ?_⟩ <;> simp [fireTask, h, h2]

/-- Witness for C4: an erroring LRA containment plus an SRA containment hit
resolves the fire slot from the first SRA feature without nearest-search;
two containing flood features resolve from the first. -/
theorem containment_short_circuits_nearest_witness :
    (fireTask turfLat origin QRes.qerr (QRes.ok [featNear1, featNear2])
        (QRes.ok [featFar]) (QRes.ok [featFar])).nearestRan = false ∧
    (floodTask turfLat origin (QRes.ok [featNear1, featNear2]) QRes.qerr).text
      = fmtFloodInside (propStr featNear1 "ESRI_SYMBOLOGY") := by
  constructor
  · exact ((containment_short_circuits_nearest turfLat origin).2.2 QRes.qerr featNear1
      [featNear2] (QRes.ok [featFar]) (QRes.ok [featFar]) (by decide)).1
  · exact ((containment_short_circuits_nearest turfLat origin).1 featNear1 [featNear2]
      QRes.qerr).2

/-- **C5.** In the nearest-search fallback, the selected feature attains the
minimum edge distance among the returned features, ties are broken in favor
of the earlier feature via strict `<` (every earlier feature with a finite
distance is strictly farther), features whose edge distance is `NaN` are
excluded from the comparison, and when zero features are returned (or no
feature has a finite distance) the outcome is the
`No nearby zones found` text — for both `getClosestFeatureByEdgeDistance`
and `nearestByEdgeDistanceAcross`. -/
theorem nearest_fallback_min_first_tie (T : TurfLib) (pt : Point) (label field : String) :
    (∀ features f d,
        closestFold (edgeDist T pt) features none = some (f, d) →
        getClosestFeatureByEdgeDistance T pt (QRes.ok features) label field
            = some (nearestFoundText label (propStr f field) d) ∧
        edgeDist T pt f = some d ∧
        (∀ g ∈ features, ∀ dg, edgeDist T pt g = some dg → d ≤ dg) ∧
        (∃ l₁ l₂, features = l₁ ++ f :: l₂ ∧
            ∀ g ∈ l₁, ∀ dg, edgeDist T pt g = some dg → d < dg)) ∧
    (∀ features, (∀ f ∈ features, edgeDist T pt f = none) →
        getClosestFeatureByEdgeDistance T pt (QRes.ok features) label field
            = some (noNearbyText label)) ∧
    (∀ layersRes f d,
        nearestAcross (edgeDist T pt) layersRes none = some (f, d) →
        nearestByEdgeDistanceAcross T pt layersRes label field
            = nearestFoundText label (propStr f field) d ∧
        edgeDist T pt f = some d ∧
        (∀ g ∈ acrossFeatures layersRes, ∀ dg, edgeDist T pt g = some dg → d ≤ dg) ∧
        (∃ l₁ l₂, acrossFeatures layersRes = l₁ ++ f :: l₂ ∧
            ∀ g ∈ l₁, ∀ dg, edgeDist T pt g = some dg → d < dg)) ∧
    (∀ layersRes, (∀ g ∈ acrossFeatures layersRes, edgeDist T pt g = none) →
        nearestByEdgeDistanceAcross T pt layersRes label field = noNearbyText label) := by
  refine ⟨?_, ?_, ?_, ?_⟩
  · intro features f d h
    have hne : features.length > 0 := by
      cases features with
      | nil => cases h
      | cons a b => simp
    obtain ⟨hmin, -⟩ := closestFold_isMin _ _ _ _ _ h
    rcases closestFold_first _ _ _ _ _ h with hL | ⟨l₁, l₂, hsplit, hdf, -, hbefore⟩
    · cases hL
    · exact ⟨by simp [getClosestFeatureByEdgeDistance, hne, h], hdf, hmin,
        l₁, l₂, hsplit, hbefore⟩
  · intro features hall
    have hfold : closestFold (edgeDist T pt) features none = none :=
      (closestFold_none_iff _ _).mpr hall
    by_cases hne : features.length > 0 <;>
      simp [getClosestFeatureByEdgeDistance, hne, hfold]
  · intro layersRes f d h
    have hfold : closestFold (edgeDist T pt) (acrossFeatures layersRes) none = some (f, d) := by
      rw [← nearestAcross_eq_fold]
      exact h
    obtain ⟨hmin, -⟩ := closestFold_isMin _ _ _ _ _ hfold
    rcases closestFold_first _ _ _ _ _ hfold with hL | ⟨l₁, l₂, hsplit, hdf, -, hbefore⟩
    · cases hL
    · exact ⟨by simp [nearestByEdgeDistanceAcross, h], hdf, hmin, l₁, l₂, hsplit, hbefore⟩
  · intro layersRes hall
    have hfold : nearestAcross (edgeDist T pt) layersRes none = none := by
      rw [nearestAcross_eq_fold]
      exact (closestFold_none_iff _ _).mpr hall
    simp [nearestByEdgeDistanceAcross, hfold]

/-- Witness for C5: among a 3-mile feature, two tied 1-mile features and a
`NaN` feature, the first 1-mile feature is selected; a list with only `NaN`
features yields the `No nearby zones found` text. -/
theorem nearest_fallback_min_first_tie_witness :
    getClosestFeatureByEdgeDistance turfLat origin
        (QRes.ok [featFar, featNear1, featNaN, featNear2]) "Flood Hazard Zone" "ESRI_SYMBOLOGY"
      = some (nearestFoundText "Flood Hazard Zone" (propStr featNear1 "ESRI_SYMBOLOGY") 1) ∧
    getClosestFeatureByEdgeDistance turfLat origin
        (QRes.ok [featNaN]) "Flood Hazard Zone" "ESRI_SYMBOLOGY"
      = some (noNearbyText "Flood Hazard Zone") := by
  have e1 : edgeDist turfLat origin featFar = some 3 := by
    rw [show featFar = { geom := polyAt 3, props := [("ESRI_SYMBOLOGY", "far")] } from rfl,
      edgeDist_turfLat_polyAt]
    norm_num [round2]
  have e2 : edgeDist turfLat origin featNear1 = some 1 := by
    rw [show featNear1 = { geom := polyAt 1, props := [("ESRI_SYMBOLOGY", "near1")] } from rfl,
      edgeDist_turfLat_polyAt]
    norm_num [round2]
  have e3 : edgeDist turfLat origin featNaN = none :=
    edgeDist_other turfLat origin [("ESRI_SYMBOLOGY", "nanFeat")]
  have e4 : edgeDist turfLat origin featNear2 = some 1 := by
    rw [show featNear2 = { geom := polyAt 1, props := [("ESRI_SYMBOLOGY", "near2")] } from rfl,
      edgeDist_turfLat_polyAt]
    norm_num [round2]
  have hsel : closestFold (edgeDist turfLat origin) [featFar, featNear1, featNaN, featNear2] none
      = some (featNear1, 1) := by
    simp only [closestFold, List.foldl_cons, List.foldl_nil, closestStep, e1, e2, e3, e4]
    norm_num
  constructor
  · exact ((nearest_fallback_min_first_tie turfLat origin "Flood Hazard Zone"
      "ESRI_SYMBOLOGY").1 [featFar, featNear1, featNaN, featNear2] featNear1 1 hsel).1
  · exact (nearest_fallback_min_first_tie turfLat origin "Flood Hazard Zone"
      "ESRI_SYMBOLOGY").2.1 [featNaN] (by
        intro f hf
        rw [List.mem_singleton.mp hf]
        exact e3)

/-- **C6 counterexample.** `getDistanceToPolygonEdge` on a polygon feature
does *not* return a float: `distance.toFixed(2)` is a string, so the
returned JS value is of string type (callers recover the number with
`parseFloat`). -/
theorem distance_to_edge_returns_string_not_float :
    (getDistanceToPolygonEdge turfZero origin featNear1).isNumber = false := rfl

/-- **C6 (amended).** For every Polygon or MultiPolygon feature geometry,
`getDistanceToPolygonEdge` returns the turf great-circle distance in miles
from the query point to the nearest point on the feature's boundary rings,
rounded to two decimal places — as the decimal string produced by
`toFixed(2)`, whose `parseFloat` is exactly the rounded value; for every
non-polygonal geometry it returns the number `NaN`. -/
theorem distance_to_edge_contract :
    (∀ (T : TurfLib) (pt : Point) (f : Feature) (rings : List (List Point)),
        f.geom = .polygon rings →
        getDistanceToPolygonEdge T pt f
          = .str (round2 (T.distanceMiles pt (T.nearestPointOnLine rings pt))) ∧
        parseFloatJs (getDistanceToPolygonEdge T pt f)
          = some (round2 (T.distanceMiles pt (T.nearestPointOnLine rings pt)))) ∧
    (∀ (T : TurfLib) (pt : Point) (f : Feature) (polys : List (List (List Point))),
        f.geom = .multiPolygon polys →
        getDistanceToPolygonEdge T pt f
          = .str (round2 (T.distanceMiles pt (T.nearestPointOnLine polys.flatten pt))) ∧
        parseFloatJs (getDistanceToPolygonEdge T pt f)
          = some (round2 (T.distanceMiles pt (T.nearestPointOnLine polys.flatten pt)))) ∧
    (∀ (T : TurfLib) (pt : Point) (f : Feature),
        f.geom = .other → getDistanceToPolygonEdge T pt f = .nan) := by
  refine ⟨?_, ?_, ?_⟩
  · intro T pt f rings hg
    constructor <;> simp [getDistanceToPolygonEdge, boundaryRings, hg, parseFloatJs]
  · intro T pt f polys hg
    constructor <;> simp [getDistanceToPolygonEdge, boundaryRings, hg, parseFloatJs]
  · intro T pt f hg
    simp [getDistanceToPolygonEdge, boundaryRings, hg]

/-- Witness for C6: a concrete polygon feature yields the rounded-distance
string; a concrete non-polygonal feature yields `NaN`. -/
theorem distance_to_edge_contract_witness :
    getDistanceToPolygonEdge turfZero origin featNear1
      = JsVal.str (round2 (turfZero.distanceMiles origin
          (turfZero.nearestPointOnLine [[{ lat := 1, lng := 0 }]] origin))) ∧
    getDistanceToPolygonEdge turfZero origin featNaN = JsVal.nan :=
  ⟨(distance_to_edge_contract.1 turfZero origin featNear1 [[{ lat := 1, lng := 0 }]] rfl).1,
   distance_to_edge_contract.2.2 turfZero origin featNaN rfl⟩

/-- **C7 counterexample.** A provider-level error (the `err` argument of the
query callback) on the ozone lookup leaves the slot's default
`❌ Ozone: No data.` text — it does *not* render the
`Error fetching data` message (that message is reserved for the exception
path of the `catch`). -/
theorem provider_error_leaves_default_text :
    ozoneTask QRes.qerr = ("❌ Ozone: No data.", 1) ∧
    ("❌ Ozone: No data." : String) ≠ "■ <strong>Ozone:</strong> Error fetching data." :=
  ⟨rfl, by decide⟩

/-- **C7 (amended).** When a slot's lookup throws or rejects inside a
guarded region — a malformed containment response on the flood, ozone,
PM2.5 or drinking-water branch, or a rejecting landslide identify — the
slot renders an explicit `Error fetching …` message in its fixed position,
never blank, and settles exactly once, so the failure does not block the
remaining slots.  A provider-level error signalled through the `err`
callback argument instead leaves the slot's default/fallback text, likewise
in its fixed position and non-blocking.  The one unguarded path — a
malformed non-error flood *nearby* response — renders no message, never
settles the flood slot and blocks the report. -/
theorem failed_slot_error_text_fixed_position_nonblocking :
    (ozoneTask QRes.malformed = ("■ <strong>Ozone:</strong> Error fetching data.", 1)) ∧
    (landslideTask LsResp.err
        = ("■ <strong>Landslide Susceptibility:</strong> Error fetching value.", 1)) ∧
    (∀ r, (ozoneTask r).2 = 1) ∧
    (∀ r, (ozoneTask r).1 ≠ "") ∧
    (∀ (v : Slot → String) (l : List Slot), l.Perm slotOrder →
        (runSettlements initAgg (l.map fun k => (k, v k))).rendered
          = some [v .fire, v .flood, v .ozone, v .pm, v .drink, v .landslide, v .shaking] ∧
        [v .fire, v .flood, v .ozone, v .pm, v .drink, v .landslide, v .shaking][2]?
          = some (v .ozone)) ∧
    (pmTask QRes.malformed = ("■ <strong>PM2.5:</strong> Error fetching data.", 1)) ∧
    (drinkTask QRes.malformed
        = ("■ <strong>Drinking Water:</strong> Error fetching data.", 1)) ∧
    (∀ (T : TurfLib) (pt : Point) (n : QRes Feature),
        floodTask T pt QRes.malformed n
          = { text := "■ <strong>Flood Hazard Zone:</strong> Error fetching data."
              nearestInvoked := false, settleCount := 1 }) ∧
    (∀ (T : TurfLib) (pt : Point),
        (floodTask T pt QRes.qerr QRes.malformed).settleCount = 0 ∧
        (floodTask T pt (QRes.ok []) QRes.malformed).settleCount = 0) := by
  refine ⟨rfl, rfl, ?_, ?_, ?_, rfl, rfl, fun T pt n => rfl, fun T pt => ⟨rfl, rfl⟩⟩
  · intro r
    rcases r with _ | fs | _
    · rfl
    · cases fs <;> rfl
    · rfl
  · intro r
    rcases r with _ | fs | _
    · decide
    · cases fs with
      | nil => decide
      | cons p rest =>
        show fmtCalEnviro _ _ _ _ _ ≠ ""
        simp only [fmtCalEnviro]
        intro h
        have hl := congrArg String.length h
        simp only [String.length_append] at hl
        have hA : 1 ≤ ("■ <strong>" : String).length := by decide
        have h0 : ("" : String).length = 0 := rfl
        omega
    · decide
  · intro v l hp
    exact ⟨rendered_static_order v l hp, rfl⟩

/-- Witness for C7: with the ozone slot settled from a malformed response
and the six other slots settled in some order, the report renders with the
error message in the ozone slot's fixed third position. -/
theorem failed_slot_error_text_witness :
    (ozoneTask QRes.malformed).1 = "■ <strong>Ozone:</strong> Error fetching data." ∧
    (runSettlements initAgg
        ([Slot.ozone, Slot.shaking, Slot.landslide, Slot.drink, Slot.pm, Slot.flood,
          Slot.fire].map fun k => (k, (ozoneTask QRes.malformed).1))).rendered
      = some (List.replicate 7 (ozoneTask QRes.malformed).1) := by
  constructor
  · exact congrArg Prod.fst failed_slot_error_text_fixed_position_nonblocking.1
  · have h := (failed_slot_error_text_fixed_position_nonblocking.2.2.2.2.1
      (fun _ => (ozoneTask QRes.malformed).1)
      [Slot.ozone, Slot.shaking, Slot.landslide, Slot.drink, Slot.pm, Slot.flood, Slot.fire]
      (by decide)).1
    rw [h]
    rfl

/-- **C8.** A burst of viewport-changed (`moveend`) events — consecutive
events strictly less than 600 ms apart — causes the debounced
`fetchInView` to run exactly once, 600 ms after the last event of the
burst: each new event within the window resets the timer, and the single
run happens only after a quiet period of 600 ms in which every burst event
has already passed. -/
theorem debounced_burst_fires_once (ts : List ℕ) (hne : ts ≠ [])
    (hburst : List.Chain' (fun a b => a < b ∧ b < a + evFetchDebounceMs) ts) :
    debounceRun evFetchDebounceMs ts = [ts.getLast hne + evFetchDebounceMs] ∧
    (debounceRun evFetchDebounceMs ts).length = 1 ∧
    ∀ t ∈ ts, t + evFetchDebounceMs ≤ ts.getLast hne + evFetchDebounceMs := by
  have hmain : debounceRun evFetchDebounceMs ts = [ts.getLast hne + evFetchDebounceMs] := by
    cases ts with
    | nil => exact absurd rfl hne
    | cons t rest =>
      show debounceGo evFetchDebounceMs (some (t + evFetchDebounceMs)) rest = _
      rw [debounceGo_pending_burst evFetchDebounceMs rest t hburst]
  refine ⟨hmain, by rw [hmain]; rfl, ?_⟩
  intro t ht
  have hlt : List.Chain' (· < ·) ts := hburst.imp (fun a b h => h.1)
  have := chain_lt_le_getLast ts hne hlt t ht
  omega

/-- Witness for C8: three events at 0, 100 and 650 ms (gaps 100 and 550,
both under 600) produce exactly one run, at 1250 ms. -/
theorem debounced_burst_fires_once_witness :
    debounceRun evFetchDebounceMs [0, 100, 650] = [1250] := by
  have h := (debounced_burst_fires_once [0, 100, 650] (by decide) (by
    norm_num [List.chain'_cons, List.chain'_singleton, evFetchDebounceMs])).1
  rw [h]
  decide

/-- **C9.** At most one EV-charger fetch is in flight per controller
instance at any time: `fetchInView` returns immediately without fetching
while `isLoading` is set, the flag is set whenever a fetch starts, both the
success and the failure handler clear the flag without starting another
fetch (no automatic retry), and along every event sequence from a fresh
controller the number of in-flight fetches never exceeds one. -/
theorem single_fetch_in_flight :
    (∀ s : EvState, s.isLoading = true → evStep s EvEvent.fetchInView = (s, false)) ∧
    (∀ s : EvState, (evStep s EvEvent.fetchInView).2 = true →
        (evStep s EvEvent.fetchInView).1.isLoading = true) ∧
    (∀ s : EvState, s.inFlight ≠ 0 →
        (evStep s EvEvent.fetchSuccess).1.isLoading = false ∧
        (evStep s EvEvent.fetchFailure).1.isLoading = false) ∧
    (∀ s : EvState, (evStep s EvEvent.fetchSuccess).2 = false ∧
        (evStep s EvEvent.fetchFailure).2 = false) ∧
    (∀ (b : Bool) (events : List EvEvent), (evRun (evInit b) events).inFlight ≤ 1) := by
  refine ⟨?_, ?_, ?_, ?_, ?_⟩
  · intro s h
    by_cases hen : s.enabled <;> simp [evStep, h, hen]
  · intro s h
    by_cases hen : s.enabled <;> by_cases hl : s.isLoading <;>
      simp [evStep, hen, hl] at h ⊢
  · intro s h
    simp [evStep, h]
  · intro s
    by_cases h0 : s.inFlight = 0 <;> simp [evStep, h0]
  · intro b events
    exact (evRun_preserves_inv events (evInit b) (by simp [evInv, evInit])).1

/-- Witness for C9: calling `fetchInView` while a fetch is already loading
changes nothing and starts nothing, and a concrete call/call/success/call
trace never has more than one fetch in flight. -/
theorem single_fetch_in_flight_witness :
    evStep { enabled := true, isLoading := true, inFlight := 1 } EvEvent.fetchInView
      = ({ enabled := true, isLoading := true, inFlight := 1 }, false) ∧
    (evRun (evInit true)
        [EvEvent.fetchInView, EvEvent.fetchInView, EvEvent.fetchSuccess,
         EvEvent.fetchInView]).inFlight ≤ 1 :=
  ⟨single_fetch_in_flight.1 { enabled := true, isLoading := true, inFlight := 1 } rfl,
   single_fetch_in_flight.2.2.2.2 true
     [EvEvent.fetchInView, EvEvent.fetchInView, EvEvent.fetchSuccess, EvEvent.fetchInView]⟩

/-- **C10.** `identifyMMIAt` never rejects: for every provider error or
unparseable response it resolves (to `null` in those cases), so a
shaking-source failure leaves the shaking slot at its default `No data`
placeholder, the error-message branch of the shaking task is unreachable
via provider behaviour — in contrast to `identifyLandslideAt`, which
rejects on a provider error. -/
theorem mmi_identify_never_rejects :
    (∀ resp : MMIResp, ∃ v, identifyMMIAt resp = Except.ok v) ∧
    (identifyMMIAt MMIResp.err = Except.ok none) ∧
    (shakingTask MMIResp.err = (initResults Slot.shaking, 1)) ∧
    (∀ resp, (shakingTask resp).1 ≠ shakingErrText) ∧
    (identifyLandslideAt LsResp.err = Except.error ()) := by
  have hex : ∀ resp : MMIResp, ∃ v, identifyMMIAt resp = Except.ok v := by
    intro resp
    cases resp with
    | err => exact ⟨none, rfl⟩
    | ok raw =>
      simp only [identifyMMIAt]
      rcases hp : raw.pixelValue with _ | v
      · rcases hr : raw.rawValue with _ | v
        · rcases hs : raw.resValue with _ | v
          · simp [hp, hr, hs]
          · cases v <;> simp [hp, hr, hs]
        · cases v <;> simp [hp, hr]
      · cases v <;> simp [hp]
  refine ⟨hex, rfl, rfl, ?_, rfl⟩
  intro resp
  obtain ⟨v, hv⟩ := hex resp
  simp only [shakingTask, hv]
  cases v with
  | none => decide
  | some mmi =>
    show fmtShaking mmi (formatMMI mmi) ≠ shakingErrText
    simp only [fmtShaking]
    intro h
    have hl := congrArg String.length h
    simp only [String.length_append] at hl
    have hA : 55 ≤
        ("■ <strong>Shaking Potential (MMI, 10%/50yr):</strong><br>\n" : String).length := by
      decide
    have hB : 25 ≤ ("Estimated intensity: <strong>" : String).length := by decide
    have hq : shakingErrText.length ≤ 70 := by decide
    omega

/-- Witness for C10: a response whose `raw.pixel.value` is present but not
finite resolves to `null`, and the shaking slot of an erroring provider
keeps its default text rather than the error message. -/
theorem mmi_identify_never_rejects_witness :
    (∃ v, identifyMMIAt
        (MMIResp.ok { pixelValue := some none, rawValue := none, resValue := none })
      = Except.ok v) ∧
    (shakingTask MMIResp.err).1 ≠ shakingErrText :=
  ⟨mmi_identify_never_rejects.1 _, mmi_identify_never_rejects.2.2.2.1 _⟩

end GeoMap
